import Mathlib

/-!
Shallow embedding of the ray tracer in `src/raytracer.js`.

Vectors are triples of reals; JavaScript numbers are modelled as real
numbers, with `EReal` used exactly where the source manipulates the
`Infinity` sentinel (intersection distances and the `tMin`/`tMax` interval
bounds).  The recursion depth counter is an integer, as in the source it is
an arbitrary number compared against `0` and decremented.
-/

namespace Raytracer

/-- A 3-component vector, as the 3-element arrays of the source. -/
@[ext]
structure Vec3 where
  x : ℝ
  y : ℝ
  z : ℝ

/-- Componentwise sum, from `add` in the source. -/
def add (V1 V2 : Vec3) : Vec3 :=
  ⟨V1.x + V2.x, V1.y + V2.y, V1.z + V2.z⟩

/-- Componentwise difference, from `sub` in the source. -/
def sub (V1 V2 : Vec3) : Vec3 :=
  ⟨V1.x - V2.x, V1.y - V2.y, V1.z - V2.z⟩

/-- Scalar multiple, from `scale` in the source. -/
def scale (s : ℝ) (V : Vec3) : Vec3 :=
  ⟨s * V.x, s * V.y, s * V.z⟩

/-- Dot product, from `dot` in the source (`sum` of the componentwise products). -/
def dot (V1 V2 : Vec3) : ℝ :=
  V1.x * V2.x + V1.y * V2.y + V1.z * V2.z

/-- Euclidean length, from `len` in the source. -/
noncomputable def len (V : Vec3) : ℝ :=
  Real.sqrt (dot V V)

/-- A color is a 3-component vector of channel values, as in the source. -/
abbrev Color := Vec3

/-- A sphere record, from the `scene.spheres` entries of the source. -/
structure Sphere where
  center : Vec3
  radius : ℝ
  color : Color
  specular : ℝ
  reflective : ℝ

/-- A light, from the `scene.lights` entries of the source: one of the three
`type` tags `ambient`, `point`, `directional` with their fields. -/
inductive Light where
  | ambient (intensity : ℝ)
  | point (intensity : ℝ) (position : Vec3)
  | directional (intensity : ℝ) (direction : Vec3)

/-- The scene: an ordered list of spheres and an ordered list of lights,
passed explicitly where the source reads the module-level `scene`. -/
structure Scene where
  spheres : List Sphere
  lights : List Light

/-- `reflectRay(R, N) = 2*N*<N,R> - R`, from the source. -/
def reflectRay (R N : Vec3) : Vec3 :=
  sub (scale (2 * dot N R) N) R

/-- `intersectRaySphere` from the source: solve `k1*t^2 + k2*t + k3 = 0`;
a negative discriminant yields the `(Infinity, Infinity)` sentinel,
otherwise the two roots with the `+` root first. -/
noncomputable def intersectRaySphere (O D : Vec3) (sphere : Sphere) : EReal × EReal :=
  let OC := sub O sphere.center
  let k1 := dot D D
  let k2 := 2 * dot OC D
  let k3 := dot OC OC - sphere.radius ^ 2
  let discriminant := k2 ^ 2 - 4 * k1 * k3
  if discriminant < 0 then (⊤, ⊤)
  else
    (((-k2 + Real.sqrt discriminant) / (2 * k1) : ℝ),
     ((-k2 - Real.sqrt discriminant) / (2 * k1) : ℝ))

/-- The body of `closestIntersection`'s loop over one sphere: test the first
root, then the second, each against the bounds and the running best. -/
noncomputable def ciStep (O D : Vec3) (tMin tMax : EReal)
    (acc : Option Sphere × EReal) (sphere : Sphere) : Option Sphere × EReal :=
  let r := intersectRaySphere O D sphere
  let acc1 := if tMin < r.1 ∧ r.1 < tMax ∧ r.1 < acc.2 then (some sphere, r.1) else acc
  if tMin < r.2 ∧ r.2 < tMax ∧ r.2 < acc1.2 then (some sphere, r.2) else acc1

/-- `closestIntersection` from the source: fold the per-sphere test over the
sphere list starting from `(null, Infinity)`. -/
noncomputable def closestIntersection (O D : Vec3) (tMin tMax : EReal)
    (spheres : List Sphere) : Option Sphere × EReal :=
  spheres.foldl (ciStep O D tMin tMax) (none, ⊤)

/-- The diffuse-plus-specular contribution of one non-ambient light in
`computeLighting`, after deriving its light vector `L` and shadow cutoff
`tMax`: zero when the shadow test hits a sphere, else the diffuse term (when
`<N,L> > 0`) plus the specular term (when `s ≠ -1` and `<R,V> > 0`). -/
noncomputable def nonAmbient (spheres : List Sphere) (P N V : Vec3)
    (s intensity : ℝ) (L : Vec3) (tMax : EReal) : ℝ :=
  if ((closestIntersection P L ((0.001 : ℝ) : EReal) tMax spheres).1).isSome then 0
  else
    let nDotL := dot N L
    let diffuse := if 0 < nDotL then intensity * nDotL / (len N * len L) else 0
    let specular :=
      if s ≠ -1 then
        let R := reflectRay L N
        let rDotV := dot R V
        if 0 < rDotV then intensity * (rDotV / (len R * len V)) ^ s else 0
      else 0
    diffuse + specular

/-- The contribution of one light in `computeLighting`'s loop: ambient lights
add their intensity unconditionally; point lights use `L = position - P` and
cutoff `1.0`; directional lights use their fixed direction and cutoff
`Infinity`. -/
noncomputable def lightContribution (spheres : List Sphere) (P N V : Vec3)
    (s : ℝ) : Light → ℝ
  | Light.ambient intensity => intensity
  | Light.point intensity position =>
      nonAmbient spheres P N V s intensity (sub position P) ((1 : ℝ) : EReal)
  | Light.directional intensity direction =>
      nonAmbient spheres P N V s intensity direction ⊤

/-- `computeLighting` from the source: accumulate each light's contribution
starting from `i = 0`. -/
noncomputable def computeLighting (scene : Scene) (P N V : Vec3) (s : ℝ) : ℝ :=
  scene.lights.foldl (fun i light => i + lightContribution scene.spheres P N V s light) 0

/-- `P = O + t*D`, the hit point computed in `traceRay`. -/
def hitPoint (O D : Vec3) (t : ℝ) : Vec3 :=
  add O (scale t D)

/-- The unit surface normal at `P` on a sphere, as computed in `traceRay`:
`N = (P - center) / len(P - center)`. -/
noncomputable def surfaceNormal (P : Vec3) (sphere : Sphere) : Vec3 :=
  scale (1 / len (sub P sphere.center)) (sub P sphere.center)

/-- The `localColor` computed in `traceRay`:
`computeLighting(P, N, V, specular) * color` with `P`, `N` as above and
`V = -D`. -/
noncomputable def localColorAt (scene : Scene) (O D : Vec3) (t : ℝ)
    (sphere : Sphere) : Color :=
  scale
    (computeLighting scene (hitPoint O D t)
      (surfaceNormal (hitPoint O D t) sphere) (scale (-1) D) sphere.specular)
    sphere.color

/-- The reflective blend on the last line of `traceRay`:
`localColor*(1-r) + reflectedColor*r`. -/
def blend (r : ℝ) (localColor reflectedColor : Color) : Color :=
  add (scale (1 - r) localColor) (scale r reflectedColor)

/-- `traceRay` from the source: nearest hit, local shading, and a recursive
mirror contribution blended in when `depth > 0` and the sphere is
reflective.  The recursion is on the strictly decreasing `depth`. -/
noncomputable def traceRay (scene : Scene) (backgroundColor : Color)
    (O D : Vec3) (tMin tMax : EReal) (depth : ℤ) : Color :=
  match closestIntersection O D tMin tMax scene.spheres with
  | (none, _) => backgroundColor
  | (some sphere, t) =>
    if h : depth ≤ 0 ∨ sphere.reflective ≤ 0 then
      localColorAt scene O D t.toReal sphere
    else
      blend sphere.reflective (localColorAt scene O D t.toReal sphere)
        (traceRay scene backgroundColor (hitPoint O D t.toReal)
          (reflectRay (scale (-1) D)
            (surfaceNormal (hitPoint O D t.toReal) sphere))
          ((0.001 : ℝ) : EReal) ⊤ (depth - 1))
termination_by depth.toNat
decreasing_by
  rcases not_or.mp h with ⟨h1, -⟩
  rw [not_le] at h1
  omega

/-- A fuel-instrumented copy of `traceRay`, structurally recursive on an
explicit fuel counter: it returns `none` when the fuel runs out before the
tracer's own termination conditions stop the recursion.  Used to state that
the recursion depth of `traceRay` is bounded by the initial `depth`. -/
noncomputable def traceRayFuel (scene : Scene) (backgroundColor : Color) :
    ℕ → Vec3 → Vec3 → EReal → EReal → ℤ → Option Color
  | 0, _, _, _, _, _ => none
  | (fuel + 1), O, D, tMin, tMax, depth =>
    match closestIntersection O D tMin tMax scene.spheres with
    | (none, _) => some backgroundColor
    | (some sphere, t) =>
      if depth ≤ 0 ∨ sphere.reflective ≤ 0 then
        some (localColorAt scene O D t.toReal sphere)
      else
        match traceRayFuel scene backgroundColor fuel (hitPoint O D t.toReal)
            (reflectRay (scale (-1) D)
              (surfaceNormal (hitPoint O D t.toReal) sphere))
            ((0.001 : ℝ) : EReal) ⊤ (depth - 1) with
        | none => none
        | some reflectedColor =>
          some (blend sphere.reflective (localColorAt scene O D t.toReal sphere)
            reflectedColor)

/-- `t` lies strictly inside the open interval `(tMin, tMax)`. -/
def strictlyInside (tMin tMax t : EReal) : Prop :=
  tMin < t ∧ t < tMax

/-- `t` is one of the two values `intersectRaySphere` returns for `sphere`. -/
def isRoot (O D : Vec3) (sphere : Sphere) (t : EReal) : Prop :=
  t = (intersectRaySphere O D sphere).1 ∨ t = (intersectRaySphere O D sphere).2

/-! Concrete data used to evaluate the definitions on the end-to-end
scenarios of the specification. -/

/-- The scenario sphere: center `(0,0,5)`, radius `1`, color `(255,0,0)`,
specular `-1`, reflective `0`. -/
noncomputable def S0 : Sphere :=
  ⟨⟨0, 0, 5⟩, 1, ⟨255, 0, 0⟩, -1, 0⟩

/-- The scenario sphere with reflective coefficient `1/2` instead of `0`. -/
noncomputable def S1 : Sphere :=
  ⟨⟨0, 0, 5⟩, 1, ⟨255, 0, 0⟩, -1, 1 / 2⟩

/-- The scenario ray origin `(0,0,0)`. -/
noncomputable def O0 : Vec3 := ⟨0, 0, 0⟩

/-- The scenario ray direction `(0,0,1)`. -/
noncomputable def D0 : Vec3 := ⟨0, 0, 1⟩

/-- A light vector pointing from the origin to a point light at `(0,0,10)`. -/
noncomputable def L10 : Vec3 := ⟨0, 0, 10⟩

/-- The scenario background color `(0,0,0)`. -/
noncomputable def bg0 : Color := ⟨0, 0, 0⟩

/-- The scenario scene: the single sphere `S0` and one ambient light of
intensity `1`. -/
noncomputable def scene0 : Scene :=
  ⟨[S0], [Light.ambient 1]⟩

/-- The scenario scene with the reflective sphere `S1` instead of `S0`. -/
noncomputable def scene1 : Scene :=
  ⟨[S1], [Light.ambient 1]⟩

/-! Helper lemmas about the `closestIntersection` fold. -/

theorem ciStep_snd_le (O D : Vec3) (tMin tMax : EReal)
    (acc : Option Sphere × EReal) (sphere : Sphere) :
    (ciStep O D tMin tMax acc sphere).2 ≤ acc.2 := by
  unfold ciStep
  dsimp only
  split_ifs with h1 h2 h3
  · exact le_of_lt (lt_of_lt_of_le h2.2.2 (le_of_lt h1.2.2))
  · exact le_of_lt h1.2.2
  · exact le_of_lt h3.2.2
  · exact le_refl _

theorem foldl_ciStep_snd_le (O D : Vec3) (tMin tMax : EReal)
    (spheres : List Sphere) (acc : Option Sphere × EReal) :
    (spheres.foldl (ciStep O D tMin tMax) acc).2 ≤ acc.2 := by
  induction spheres generalizing acc with
  | nil => exact le_refl _
  | cons s rest ih =>
    exact le_trans (ih (ciStep O D tMin tMax acc s)) (ciStep_snd_le O D tMin tMax acc s)

theorem ciStep_min (O D : Vec3) (tMin tMax : EReal)
    (acc : Option Sphere × EReal) (sphere : Sphere) (t : EReal)
    (hroot : isRoot O D sphere t) (hq : strictlyInside tMin tMax t) :
    (ciStep O D tMin tMax acc sphere).2 ≤ t := by
  obtain ⟨hq1, hq2⟩ := hq
  unfold ciStep
  dsimp only
  rcases hroot with h | h
  · subst h
    split_ifs with h1 h2 h3
    · exact le_of_lt h2.2.2
    · exact le_refl _
    · -- the first test failed although the root is in the interval,
      -- so the running best was already at most this root
      rcases not_and.mp h1 hq1 with h4
      rcases not_and.mp h4 hq2 with h5
      exact le_of_lt (lt_of_lt_of_le h3.2.2 (not_lt.mp h5))
    · rcases not_and.mp h1 hq1 with h4
      rcases not_and.mp h4 hq2 with h5
      exact not_lt.mp h5
  · subst h
    split_ifs with h1 h2 h3
    · exact le_refl _
    · rcases not_and.mp h2 hq1 with h4
      rcases not_and.mp h4 hq2 with h5
      exact not_lt.mp h5
    · exact le_refl _
    · rcases not_and.mp h3 hq1 with h4
      rcases not_and.mp h4 hq2 with h5
      exact not_lt.mp h5

theorem foldl_ciStep_min (O D : Vec3) (tMin tMax : EReal)
    (spheres : List Sphere) (acc : Option Sphere × EReal)
    (s : Sphere) (hs : s ∈ spheres) (t : EReal)
    (hroot : isRoot O D s t) (hq : strictlyInside tMin tMax t) :
    (spheres.foldl (ciStep O D tMin tMax) acc).2 ≤ t := by
  induction spheres generalizing acc with
  | nil => exact absurd hs (List.not_mem_nil s)
  | cons s0 rest ih =>
    rcases List.mem_cons.mp hs with h | h
    · subst h
      exact le_trans (foldl_ciStep_snd_le O D tMin tMax rest _)
        (ciStep_min O D tMin tMax acc s t hroot hq)
    · exact ih _ h

theorem ciStep_cases (O D : Vec3) (tMin tMax : EReal)
    (acc : Option Sphere × EReal) (sphere : Sphere) :
    ciStep O D tMin tMax acc sphere = acc ∨
      ((ciStep O D tMin tMax acc sphere).1 = some sphere ∧
        isRoot O D sphere (ciStep O D tMin tMax acc sphere).2 ∧
        strictlyInside tMin tMax (ciStep O D tMin tMax acc sphere).2) := by
  unfold ciStep
  dsimp only
  split_ifs with h1 h2 h3
  · exact Or.inr ⟨rfl, Or.inr rfl, h2.1, h2.2.1⟩
  · exact Or.inr ⟨rfl, Or.inl rfl, h1.1, h1.2.1⟩
  · exact Or.inr ⟨rfl, Or.inr rfl, h3.1, h3.2.1⟩
  · exact Or.inl rfl

theorem foldl_ciStep_cases (O D : Vec3) (tMin tMax : EReal)
    (spheres : List Sphere) (acc : Option Sphere × EReal) :
    spheres.foldl (ciStep O D tMin tMax) acc = acc ∨
      ∃ s ∈ spheres,
        (spheres.foldl (ciStep O D tMin tMax) acc).1 = some s ∧
        isRoot O D s (spheres.foldl (ciStep O D tMin tMax) acc).2 ∧
        strictlyInside tMin tMax (spheres.foldl (ciStep O D tMin tMax) acc).2 := by
  induction spheres generalizing acc with
  | nil => exact Or.inl rfl
  | cons s0 rest ih =>
    rcases ih (ciStep O D tMin tMax acc s0) with h | h
    · rcases ciStep_cases O D tMin tMax acc s0 with h0 | h0
      · exact Or.inl (by rw [List.foldl_cons, h, h0])
      · refine Or.inr ⟨s0, List.mem_cons_self s0 rest, ?_, ?_, ?_⟩
        · rw [List.foldl_cons, h, h0.1]
        · rw [List.foldl_cons, h]; exact h0.2.1
        · rw [List.foldl_cons, h]; exact h0.2.2
    · obtain ⟨s, hs, h1, h2, h3⟩ := h
      exact Or.inr ⟨s, List.mem_cons_of_mem s0 hs, h1, h2, h3⟩

/-! Unfolding lemmas for `traceRay`. -/

theorem traceRay_of_none (scene : Scene) (backgroundColor : Color)
    (O D : Vec3) (tMin tMax : EReal) (depth : ℤ)
    (h : (closestIntersection O D tMin tMax scene.spheres).1 = none) :
    traceRay scene backgroundColor O D tMin tMax depth = backgroundColor := by
  have hpair : closestIntersection O D tMin tMax scene.spheres =
      (none, (closestIntersection O D tMin tMax scene.spheres).2) :=
    Prod.ext h rfl
  rw [traceRay, hpair]

theorem traceRay_of_some (scene : Scene) (backgroundColor : Color)
    (O D : Vec3) (tMin tMax : EReal) (depth : ℤ) (sphere : Sphere) (t : EReal)
    (h : closestIntersection O D tMin tMax scene.spheres = (some sphere, t)) :
    traceRay scene backgroundColor O D tMin tMax depth =
      if depth ≤ 0 ∨ sphere.reflective ≤ 0 then
        localColorAt scene O D t.toReal sphere
      else
        blend sphere.reflective (localColorAt scene O D t.toReal sphere)
          (traceRay scene backgroundColor (hitPoint O D t.toReal)
            (reflectRay (scale (-1) D)
              (surfaceNormal (hitPoint O D t.toReal) sphere))
            ((0.001 : ℝ) : EReal) ⊤ (depth - 1)) := by
  rw [traceRay, h]
  dsimp only
  split_ifs with hc
  · rfl
  · rfl

/-! Concrete evaluations on the scenario data. -/

theorem sqrt_four : Real.sqrt 4 = 2 := by
  rw [show (4 : ℝ) = 2 ^ 2 by norm_num]
  exact Real.sqrt_sq (by norm_num)

theorem sqrt_four_hundred : Real.sqrt 400 = 20 := by
  rw [show (400 : ℝ) = 20 ^ 2 by norm_num]
  exact Real.sqrt_sq (by norm_num)

theorem intersect_scenario (s : Sphere) (hc : s.center = ⟨0, 0, 5⟩)
    (hr : s.radius = 1) :
    intersectRaySphere O0 D0 s = (((6 : ℝ) : EReal), ((4 : ℝ) : EReal)) := by
  unfold intersectRaySphere
  rw [hc, hr]
  norm_num [O0, D0, sub, dot, sqrt_four]

theorem closest_scenario (s : Sphere) (hc : s.center = ⟨0, 0, 5⟩)
    (hr : s.radius = 1) :
    closestIntersection O0 D0 ((1 : ℝ) : EReal) ⊤ [s] =
      (some s, ((4 : ℝ) : EReal)) := by
  have c16 : ((1 : ℝ) : EReal) < ((6 : ℝ) : EReal) := by
    exact_mod_cast (show (1 : ℝ) < 6 by norm_num)
  have c14 : ((1 : ℝ) : EReal) < ((4 : ℝ) : EReal) := by
    exact_mod_cast (show (1 : ℝ) < 4 by norm_num)
  have c46 : ((4 : ℝ) : EReal) < ((6 : ℝ) : EReal) := by
    exact_mod_cast (show (4 : ℝ) < 6 by norm_num)
  unfold closestIntersection ciStep
  rw [List.foldl_cons, List.foldl_nil, intersect_scenario s hc hr]
  dsimp only
  split_ifs with h1 h2
  · rfl
  · exact absurd ⟨c14, EReal.coe_lt_top 4, c46⟩ h2
  · exact absurd ⟨c16, EReal.coe_lt_top 6, EReal.coe_lt_top 6⟩ h1
  · exact absurd ⟨c16, EReal.coe_lt_top 6, EReal.coe_lt_top 6⟩ h1

theorem closest_scenario_bounded (s : Sphere) (hc : s.center = ⟨0, 0, 5⟩)
    (hr : s.radius = 1) :
    closestIntersection O0 D0 ((1 : ℝ) : EReal) ((3 : ℝ) : EReal) [s] =
      (none, ⊤) := by
  unfold closestIntersection ciStep
  rw [List.foldl_cons, List.foldl_nil, intersect_scenario s hc hr]
  norm_num [EReal.coe_lt_coe_iff]

theorem intersect_shadow :
    intersectRaySphere O0 L10 S0 = (((3 / 5 : ℝ) : EReal), ((2 / 5 : ℝ) : EReal)) := by
  unfold intersectRaySphere
  norm_num [O0, L10, S0, sub, dot, sqrt_four_hundred]

theorem closest_shadow :
    closestIntersection O0 L10 ((0.001 : ℝ) : EReal) ((1 : ℝ) : EReal) [S0] =
      (some S0, ((2 / 5 : ℝ) : EReal)) := by
  have ca : ((0.001 : ℝ) : EReal) < ((3 / 5 : ℝ) : EReal) := by
    exact_mod_cast (show (0.001 : ℝ) < 3 / 5 by norm_num)
  have cb : ((3 / 5 : ℝ) : EReal) < ((1 : ℝ) : EReal) := by
    exact_mod_cast (show (3 / 5 : ℝ) < 1 by norm_num)
  have cc : ((0.001 : ℝ) : EReal) < ((2 / 5 : ℝ) : EReal) := by
    exact_mod_cast (show (0.001 : ℝ) < 2 / 5 by norm_num)
  have cd : ((2 / 5 : ℝ) : EReal) < ((1 : ℝ) : EReal) := by
    exact_mod_cast (show (2 / 5 : ℝ) < 1 by norm_num)
  have ce : ((2 / 5 : ℝ) : EReal) < ((3 / 5 : ℝ) : EReal) := by
    exact_mod_cast (show (2 / 5 : ℝ) < 3 / 5 by norm_num)
  unfold closestIntersection ciStep
  rw [List.foldl_cons, List.foldl_nil, intersect_shadow]
  dsimp only
  split_ifs with h1 h2
  · rfl
  · exact absurd ⟨cc, cd, ce⟩ h2
  · exact absurd ⟨ca, cb, EReal.coe_lt_top (3 / 5)⟩ h1
  · exact absurd ⟨ca, cb, EReal.coe_lt_top (3 / 5)⟩ h1

theorem closestIntersection_cases (O D : Vec3) (tMin tMax : EReal)
    (spheres : List Sphere) :
    closestIntersection O D tMin tMax spheres = (none, ⊤) ∨
      ∃ s ∈ spheres,
        (closestIntersection O D tMin tMax spheres).1 = some s ∧
        isRoot O D s (closestIntersection O D tMin tMax spheres).2 ∧
        strictlyInside tMin tMax (closestIntersection O D tMin tMax spheres).2 :=
  foldl_ciStep_cases O D tMin tMax spheres (none, ⊤)

theorem closestIntersection_min (O D : Vec3) (tMin tMax : EReal)
    (spheres : List Sphere) (s : Sphere) (hs : s ∈ spheres) (t : EReal)
    (hroot : isRoot O D s t) (hq : strictlyInside tMin tMax t) :
    (closestIntersection O D tMin tMax spheres).2 ≤ t :=
  foldl_ciStep_min O D tMin tMax spheres (none, ⊤) s hs t hroot hq

/-- Claim C1: `closestIntersection` scans all spheres and keeps the smallest
root lying strictly inside the open interval `(tMin, tMax)`: its result is a
lower bound on every qualifying root, it is `(none, ⊤)` exactly when no root
of any sphere qualifies (in particular on the empty sphere list), a returned
sphere is a listed sphere achieving the returned distance as a qualifying
root, and the caller `traceRay` treats a `none` sphere as "no hit" regardless
of the accompanying distance. -/
theorem closestIntersection_spec (O D : Vec3) (tMin tMax : EReal)
    (spheres : List Sphere) :
    (∀ s ∈ spheres, ∀ t : EReal, isRoot O D s t → strictlyInside tMin tMax t →
      (closestIntersection O D tMin tMax spheres).2 ≤ t) ∧
    closestIntersection O D tMin tMax [] = (none, ⊤) ∧
    (closestIntersection O D tMin tMax spheres = (none, ⊤) ↔
      ∀ s ∈ spheres, ∀ t : EReal, isRoot O D s t → ¬ strictlyInside tMin tMax t) ∧
    (∀ s, (closestIntersection O D tMin tMax spheres).1 = some s →
      s ∈ spheres ∧ isRoot O D s (closestIntersection O D tMin tMax spheres).2 ∧
      strictlyInside tMin tMax (closestIntersection O D tMin tMax spheres).2) ∧
    (∀ (scene : Scene) (backgroundColor : Color) (depth : ℤ),
      scene.spheres = spheres →
      (closestIntersection O D tMin tMax spheres).1 = none →
      traceRay scene backgroundColor O D tMin tMax depth = backgroundColor) := by
  refine ⟨?_, rfl, ⟨?_, ?_⟩, ?_, ?_⟩
  · intro s hs t hroot hq
    exact foldl_ciStep_min O D tMin tMax spheres _ s hs t hroot hq
  · intro h s hs t hroot hq
    have hle : (closestIntersection O D tMin tMax spheres).2 ≤ t :=
      foldl_ciStep_min O D tMin tMax spheres _ s hs t hroot hq
    rw [h] at hle
    have ht : t = ⊤ := top_le_iff.mp hle
    rw [ht] at hq
    exact not_top_lt hq.2
  · intro h
    rcases closestIntersection_cases O D tMin tMax spheres with hc | hc
    · exact hc
    · obtain ⟨s, hs, h1, h2, h3⟩ := hc
      exact absurd h3 (h s hs _ h2)
  · intro s hfst
    rcases closestIntersection_cases O D tMin tMax spheres with hc | hc
    · rw [show (closestIntersection O D tMin tMax spheres).1 = none from
        congrArg Prod.fst hc] at hfst
      exact absurd hfst (by simp)
    · obtain ⟨s', hs', h1, h2, h3⟩ := hc
      have : s' = s := by
        have := h1.symm.trans hfst
        exact Option.some_injective _ this
      subst this
      exact ⟨hs', h2, h3⟩
  · intro scene backgroundColor depth hsc hnone
    subst hsc
    exact traceRay_of_none scene backgroundColor O D tMin tMax depth hnone

/-- Claim C9: the sentinel invariant of `closestIntersection` — the returned
sphere is `none` exactly when the returned distance is the `⊤` sentinel, and
a returned sphere always comes with a distance strictly inside
`(tMin, tMax)` that is one of that sphere's two `intersectRaySphere` roots. -/
theorem closestIntersection_sentinel (O D : Vec3) (tMin tMax : EReal)
    (spheres : List Sphere) :
    ((closestIntersection O D tMin tMax spheres).1 = none ↔
      (closestIntersection O D tMin tMax spheres).2 = ⊤) ∧
    (∀ s, (closestIntersection O D tMin tMax spheres).1 = some s →
      strictlyInside tMin tMax (closestIntersection O D tMin tMax spheres).2 ∧
      isRoot O D s (closestIntersection O D tMin tMax spheres).2 ∧
      s ∈ spheres) := by
  constructor
  · constructor
    · intro h
      rcases closestIntersection_cases O D tMin tMax spheres with hc | hc
      · exact congrArg Prod.snd hc
      · obtain ⟨s, hs, h1, h2, h3⟩ := hc
        rw [h1] at h
        exact absurd h (by simp)
    · intro h
      rcases closestIntersection_cases O D tMin tMax spheres with hc | hc
      · exact congrArg Prod.fst hc
      · obtain ⟨s, hs, h1, h2, h3⟩ := hc
        rw [h] at h3
        exact absurd h3.2 not_top_lt
  · intro s hfst
    rcases closestIntersection_cases O D tMin tMax spheres with hc | hc
    · rw [show (closestIntersection O D tMin tMax spheres).1 = none from
        congrArg Prod.fst hc] at hfst
      exact absurd hfst (by simp)
    · obtain ⟨s', hs', h1, h2, h3⟩ := hc
      have : s' = s := Option.some_injective _ (h1.symm.trans hfst)
      subst this
      exact ⟨h3, h2, hs'⟩

/-- Witness for claim C1: on the scenario scene the returned distance is a
lower bound on the qualifying root `6`, and the returned sphere achieves the
returned distance as a qualifying root. -/
theorem closestIntersection_spec_witness :
    (closestIntersection O0 D0 ((1 : ℝ) : EReal) ⊤ [S0]).2 ≤ ((6 : ℝ) : EReal) ∧
    (S0 ∈ [S0] ∧
      isRoot O0 D0 S0 (closestIntersection O0 D0 ((1 : ℝ) : EReal) ⊤ [S0]).2 ∧
      strictlyInside ((1 : ℝ) : EReal) ⊤
        (closestIntersection O0 D0 ((1 : ℝ) : EReal) ⊤ [S0]).2) := by
  have h := closestIntersection_spec O0 D0 ((1 : ℝ) : EReal) ⊤ [S0]
  constructor
  · exact h.1 S0 (by simp) ((6 : ℝ) : EReal)
      (Or.inl (by rw [intersect_scenario S0 rfl rfl]))
      ⟨by exact_mod_cast (show (1 : ℝ) < 6 by norm_num), EReal.coe_lt_top 6⟩
  · exact h.2.2.2.1 S0 (by rw [closest_scenario S0 rfl rfl])

/-- Witness for claim C9: on the scenario scene the returned sphere comes
with a distance strictly inside the interval that is one of its roots. -/
theorem closestIntersection_sentinel_witness :
    strictlyInside ((1 : ℝ) : EReal) ⊤
      (closestIntersection O0 D0 ((1 : ℝ) : EReal) ⊤ [S0]).2 ∧
    isRoot O0 D0 S0 (closestIntersection O0 D0 ((1 : ℝ) : EReal) ⊤ [S0]).2 ∧
    S0 ∈ [S0] :=
  (closestIntersection_sentinel O0 D0 ((1 : ℝ) : EReal) ⊤ [S0]).2 S0
    (by rw [closest_scenario S0 rfl rfl])

theorem quadratic_root_solves (k1 k2 k3 d : ℝ) (h1 : k1 ≠ 0)
    (hd : d ^ 2 = k2 ^ 2 - 4 * k1 * k3) (t : ℝ)
    (ht : t = (-k2 + d) / (2 * k1) ∨ t = (-k2 - d) / (2 * k1)) :
    k1 * t ^ 2 + k2 * t + k3 = 0 := by
  rcases ht with rfl | rfl
  · field_simp
    linear_combination 2 * k1 ^ 2 * hd
  · field_simp
    linear_combination 2 * k1 ^ 2 * hd

/-- Claim C2: with `OC = O - center`, `k1 = <D,D>`, `k2 = 2<OC,D>`,
`k3 = <OC,OC> - radius²` and `disc = k2² - 4*k1*k3`, `intersectRaySphere`
returns `(⊤, ⊤)` exactly when `disc < 0`, and otherwise the two roots
`(-k2 ± √disc) / (2*k1)` with the `+` root first; the two roots average to
`-k2/(2*k1)` and, when `k1 ≠ 0` (a nonzero direction), satisfy the quadratic
`k1*t² + k2*t + k3 = 0`. -/
theorem intersectRaySphere_spec (O D : Vec3) (sp : Sphere) (k1 k2 k3 disc : ℝ)
    (hk1 : k1 = dot D D)
    (hk2 : k2 = 2 * dot (sub O sp.center) D)
    (hk3 : k3 = dot (sub O sp.center) (sub O sp.center) - sp.radius ^ 2)
    (hdisc : disc = k2 ^ 2 - 4 * k1 * k3) :
    (disc < 0 → intersectRaySphere O D sp = (⊤, ⊤)) ∧
    (0 ≤ disc →
      intersectRaySphere O D sp =
        ((((-k2 + Real.sqrt disc) / (2 * k1) : ℝ) : EReal),
         (((-k2 - Real.sqrt disc) / (2 * k1) : ℝ) : EReal)) ∧
      ((-k2 + Real.sqrt disc) / (2 * k1) + (-k2 - Real.sqrt disc) / (2 * k1)) / 2
        = -k2 / (2 * k1) ∧
      (k1 ≠ 0 →
        k1 * ((-k2 + Real.sqrt disc) / (2 * k1)) ^ 2
          + k2 * ((-k2 + Real.sqrt disc) / (2 * k1)) + k3 = 0 ∧
        k1 * ((-k2 - Real.sqrt disc) / (2 * k1)) ^ 2
          + k2 * ((-k2 - Real.sqrt disc) / (2 * k1)) + k3 = 0)) := by
  have heq : intersectRaySphere O D sp =
      if disc < 0 then ((⊤ : EReal), (⊤ : EReal))
      else
        ((((-k2 + Real.sqrt disc) / (2 * k1) : ℝ) : EReal),
         (((-k2 - Real.sqrt disc) / (2 * k1) : ℝ) : EReal)) := by
    subst hdisc hk3 hk2 hk1
    rfl
  constructor
  · intro h
    rw [heq, if_pos h]
  · intro h
    have hsq : Real.sqrt disc ^ 2 = disc := Real.sq_sqrt h
    refine ⟨by rw [heq, if_neg (not_lt.mpr h)], by ring, ?_⟩
    intro h1
    exact ⟨quadratic_root_solves k1 k2 k3 (Real.sqrt disc) h1
        (hsq.trans hdisc) _ (Or.inl rfl),
      quadratic_root_solves k1 k2 k3 (Real.sqrt disc) h1
        (hsq.trans hdisc) _ (Or.inr rfl)⟩

/-- Witness for claim C2 at origin `(0,0,0)`, direction `(0,0,1)` and the
scenario sphere, where `k1 = 1`, `k2 = -10`, `k3 = 24`, `disc = 4`. -/
theorem intersectRaySphere_spec_witness :
    intersectRaySphere O0 D0 S0 =
      ((((-(-10) + Real.sqrt 4) / (2 * 1) : ℝ) : EReal),
       (((-(-10) - Real.sqrt 4) / (2 * 1) : ℝ) : EReal)) ∧
    ((-(-10) + Real.sqrt 4) / (2 * 1) + (-(-10) - Real.sqrt 4) / (2 * 1)) / 2
      = -(-10 : ℝ) / (2 * 1) ∧
    (1 : ℝ) * ((-(-10) + Real.sqrt 4) / (2 * 1)) ^ 2
      + (-10) * ((-(-10) + Real.sqrt 4) / (2 * 1)) + 24 = 0 := by
  have h := (intersectRaySphere_spec O0 D0 S0 1 (-10) 24 4
    (by norm_num [dot, D0])
    (by norm_num [dot, sub, O0, D0, S0])
    (by norm_num [dot, sub, O0, S0])
    (by norm_num)).2 (by norm_num)
  exact ⟨h.1, h.2.1, (h.2.2 (by norm_num)).1⟩

/-- Claim C10: `reflectRay` is an involution about unit normals — reflecting
twice about an `N` with `<N,N> = 1` gives back the original vector. -/
theorem reflectRay_involution (R N : Vec3) (h : dot N N = 1) :
    reflectRay (reflectRay R N) N = R := by
  obtain ⟨nx, ny, nz⟩ := N
  obtain ⟨rx, ry, rz⟩ := R
  simp only [reflectRay, sub, scale, dot] at h ⊢
  rw [Vec3.mk.injEq]
  refine ⟨?_, ?_, ?_⟩
  · linear_combination (4 * (nx * rx + ny * ry + nz * rz) * nx) * h
  · linear_combination (4 * (nx * rx + ny * ry + nz * rz) * ny) * h
  · linear_combination (4 * (nx * rx + ny * ry + nz * rz) * nz) * h

/-- Witness for claim C10 at `R = (1,2,3)` and the unit normal `N = (0,0,1)`. -/
theorem reflectRay_involution_witness :
    dot (Vec3.mk 0 0 1) (Vec3.mk 0 0 1) = 1 ∧
    reflectRay (reflectRay (Vec3.mk 1 2 3) (Vec3.mk 0 0 1)) (Vec3.mk 0 0 1) =
      Vec3.mk 1 2 3 :=
  ⟨by norm_num [dot],
   reflectRay_involution (Vec3.mk 1 2 3) (Vec3.mk 0 0 1) (by norm_num [dot])⟩

theorem foldl_add_eq_sum (c : Light → ℝ) (L : List Light) (a : ℝ) :
    L.foldl (fun i light => i + c light) a = a + (L.map c).sum := by
  induction L generalizing a with
  | nil => simp
  | cons l rest ih => simp [ih, add_assoc]

/-- Claim C4: for a non-ambient light, `computeLighting` performs the shadow
test `closestIntersection(P, L, 0.001, tMax)` with `L = position - P` and
`tMax = 1` for point lights and `L = direction`, `tMax = ⊤` for directional
lights; when that test returns a sphere, the light contributes `0` and the
total intensity is the same as if the light were absent. -/
theorem computeLighting_shadow (sp : List Sphere) (pre post : List Light)
    (P N V : Vec3) (sExp : ℝ) (light : Light)
    (hsh : match light with
      | Light.ambient _ => False
      | Light.point _ position =>
          ((closestIntersection P (sub position P) ((0.001 : ℝ) : EReal)
            ((1 : ℝ) : EReal) sp).1).isSome = true
      | Light.directional _ direction =>
          ((closestIntersection P direction ((0.001 : ℝ) : EReal)
            ⊤ sp).1).isSome = true) :
    lightContribution sp P N V sExp light = 0 ∧
    computeLighting ⟨sp, pre ++ light :: post⟩ P N V sExp =
      computeLighting ⟨sp, pre ++ post⟩ P N V sExp := by
  have hzero : lightContribution sp P N V sExp light = 0 := by
    cases light with
    | ambient intensity => exact hsh.elim
    | point intensity position =>
      simp only [lightContribution, nonAmbient]
      rw [if_pos hsh]
    | directional intensity direction =>
      simp only [lightContribution, nonAmbient]
      rw [if_pos hsh]
  refine ⟨hzero, ?_⟩
  simp only [computeLighting]
  rw [foldl_add_eq_sum, foldl_add_eq_sum]
  simp [List.map_append, List.sum_append, hzero]

/-- Witness for claim C4: a point light at `(0,0,10)` seen from the origin is
occluded by the scenario sphere (shadow hit at `t = 2/5`), so it contributes
nothing. -/
theorem computeLighting_shadow_witness :
    lightContribution [S0] O0 (Vec3.mk 0 0 (-1)) (Vec3.mk 0 0 (-1)) (-1)
      (Light.point 1 L10) = 0 ∧
    computeLighting ⟨[S0], [Light.point 1 L10]⟩ O0 (Vec3.mk 0 0 (-1))
        (Vec3.mk 0 0 (-1)) (-1) =
      computeLighting ⟨[S0], []⟩ O0 (Vec3.mk 0 0 (-1)) (Vec3.mk 0 0 (-1)) (-1) :=
  computeLighting_shadow [S0] [] [] O0 (Vec3.mk 0 0 (-1)) (Vec3.mk 0 0 (-1))
    (-1) (Light.point 1 L10)
    (by
      show ((closestIntersection O0 (sub L10 O0) ((0.001 : ℝ) : EReal)
        ((1 : ℝ) : EReal) [S0]).1).isSome = true
      rw [show sub L10 O0 = L10 by
        simp only [sub, L10, O0]
        norm_num]
      rw [closest_shadow]
      rfl)

/-- Claim C6: when `closestIntersection` finds no sphere in the interval,
`traceRay` returns the background color unmodified. -/
theorem traceRay_miss_background (scene : Scene) (backgroundColor : Color)
    (O D : Vec3) (tMin tMax : EReal) (depth : ℤ)
    (h : (closestIntersection O D tMin tMax scene.spheres).1 = none) :
    traceRay scene backgroundColor O D tMin tMax depth = backgroundColor :=
  traceRay_of_none scene backgroundColor O D tMin tMax depth h

/-- Witness for claim C6: the one-sphere scenario with hit distance `4` but
`tMax = 3` yields the background color. -/
theorem traceRay_miss_background_witness :
    traceRay scene0 bg0 O0 D0 ((1 : ℝ) : EReal) ((3 : ℝ) : EReal) 3 = bg0 :=
  traceRay_miss_background scene0 bg0 O0 D0 ((1 : ℝ) : EReal) ((3 : ℝ) : EReal) 3
    (by
      show (closestIntersection O0 D0 ((1 : ℝ) : EReal) ((3 : ℝ) : EReal)
        [S0]).1 = none
      rw [closest_scenario_bounded S0 rfl rfl])

theorem traceRayFuel_succ (scene : Scene) (backgroundColor : Color) (fuel : ℕ)
    (O D : Vec3) (tMin tMax : EReal) (depth : ℤ) :
    traceRayFuel scene backgroundColor (fuel + 1) O D tMin tMax depth =
      match closestIntersection O D tMin tMax scene.spheres with
      | (none, _) => some backgroundColor
      | (some sphere, t) =>
        if depth ≤ 0 ∨ sphere.reflective ≤ 0 then
          some (localColorAt scene O D t.toReal sphere)
        else
          match traceRayFuel scene backgroundColor fuel (hitPoint O D t.toReal)
              (reflectRay (scale (-1) D)
                (surfaceNormal (hitPoint O D t.toReal) sphere))
              ((0.001 : ℝ) : EReal) ⊤ (depth - 1) with
          | none => none
          | some reflectedColor =>
            some (blend sphere.reflective
              (localColorAt scene O D t.toReal sphere) reflectedColor) :=
  rfl

/-- Claim C5: at `depth ≤ 0` the tracer completes within a single
non-recursive evaluation step (one unit of fuel suffices), and whenever
`depth ≤ 0` or the hit sphere's reflective coefficient is `≤ 0`, `traceRay`
returns the local color as-is, with no mirror contribution. -/
theorem traceRay_no_recursion (scene : Scene) (backgroundColor : Color)
    (O D : Vec3) (tMin tMax : EReal) (depth : ℤ) :
    (depth ≤ 0 →
      traceRayFuel scene backgroundColor 1 O D tMin tMax depth =
        some (traceRay scene backgroundColor O D tMin tMax depth)) ∧
    (∀ (sphere : Sphere) (t : EReal),
      closestIntersection O D tMin tMax scene.spheres = (some sphere, t) →
      depth ≤ 0 ∨ sphere.reflective ≤ 0 →
      traceRay scene backgroundColor O D tMin tMax depth =
        localColorAt scene O D t.toReal sphere) := by
  constructor
  · intro hd
    show traceRayFuel scene backgroundColor (0 + 1) O D tMin tMax depth = _
    rw [traceRayFuel_succ]
    rcases hres : closestIntersection O D tMin tMax scene.spheres with ⟨os, tt⟩
    cases os with
    | none =>
      dsimp only
      rw [traceRay_of_none scene backgroundColor O D tMin tMax depth
        (by rw [hres])]
    | some s =>
      dsimp only
      rw [if_pos (Or.inl hd),
        traceRay_of_some scene backgroundColor O D tMin tMax depth s tt hres,
        if_pos (Or.inl hd)]
  · intro sphere t hres hcond
    rw [traceRay_of_some scene backgroundColor O D tMin tMax depth sphere t hres,
      if_pos hcond]

/-- Witness for claim C5: the scenario ray at `depth = 0` runs on one unit of
fuel and returns the local color of the hit sphere. -/
theorem traceRay_no_recursion_witness :
    traceRayFuel scene0 bg0 1 O0 D0 ((1 : ℝ) : EReal) ⊤ 0 =
      some (traceRay scene0 bg0 O0 D0 ((1 : ℝ) : EReal) ⊤ 0) ∧
    traceRay scene0 bg0 O0 D0 ((1 : ℝ) : EReal) ⊤ 0 =
      localColorAt scene0 O0 D0 (((4 : ℝ) : EReal)).toReal S0 :=
  ⟨(traceRay_no_recursion scene0 bg0 O0 D0 ((1 : ℝ) : EReal) ⊤ 0).1 (le_refl 0),
   (traceRay_no_recursion scene0 bg0 O0 D0 ((1 : ℝ) : EReal) ⊤ 0).2 S0
     ((4 : ℝ) : EReal)
     (by
       show closestIntersection O0 D0 ((1 : ℝ) : EReal) ⊤ [S0] =
         (some S0, ((4 : ℝ) : EReal))
       exact closest_scenario S0 rfl rfl)
     (Or.inl (le_refl 0))⟩

/-- Claim C3: when `traceRay` reaches the blending step (a hit with
`depth > 0` and positive reflectivity), the result is
`localColor*(1-r) + reflectedColor*r` componentwise, and this blend is
affine in `r`: at `r = 0` it equals the local color exactly and at `r = 1`
it equals the reflected color exactly. -/
theorem traceRay_blend_affine (scene : Scene) (backgroundColor : Color)
    (O D : Vec3) (tMin tMax : EReal) (depth : ℤ) (sphere : Sphere) (t : EReal)
    (hhit : closestIntersection O D tMin tMax scene.spheres = (some sphere, t))
    (hdepth : 0 < depth) (hrefl : 0 < sphere.reflective) :
    (traceRay scene backgroundColor O D tMin tMax depth =
      blend sphere.reflective (localColorAt scene O D t.toReal sphere)
        (traceRay scene backgroundColor (hitPoint O D t.toReal)
          (reflectRay (scale (-1) D)
            (surfaceNormal (hitPoint O D t.toReal) sphere))
          ((0.001 : ℝ) : EReal) ⊤ (depth - 1))) ∧
    (∀ localColor reflectedColor : Color,
      blend 0 localColor reflectedColor = localColor ∧
      blend 1 localColor reflectedColor = reflectedColor) := by
  constructor
  · rw [traceRay_of_some scene backgroundColor O D tMin tMax depth sphere t hhit,
      if_neg (not_or.mpr ⟨not_le.mpr hdepth, not_le.mpr hrefl⟩)]
  · intro lc rc
    obtain ⟨lx, ly, lz⟩ := lc
    obtain ⟨rx, ry, rz⟩ := rc
    constructor
    · simp [blend, add, scale]
    · simp [blend, add, scale]

/-- Witness for claim C3: the scenario ray against the half-reflective sphere
`S1` at `depth = 3` reaches the blend, and the blend endpoints are exact. -/
theorem traceRay_blend_affine_witness :
    (traceRay scene1 bg0 O0 D0 ((1 : ℝ) : EReal) ⊤ 3 =
      blend S1.reflective (localColorAt scene1 O0 D0 (((4 : ℝ) : EReal)).toReal S1)
        (traceRay scene1 bg0 (hitPoint O0 D0 (((4 : ℝ) : EReal)).toReal)
          (reflectRay (scale (-1) D0)
            (surfaceNormal (hitPoint O0 D0 (((4 : ℝ) : EReal)).toReal) S1))
          ((0.001 : ℝ) : EReal) ⊤ (3 - 1))) ∧
    blend 0 bg0 (Vec3.mk 1 2 3) = bg0 ∧
    blend 1 bg0 (Vec3.mk 1 2 3) = Vec3.mk 1 2 3 := by
  have h := traceRay_blend_affine scene1 bg0 O0 D0 ((1 : ℝ) : EReal) ⊤ 3 S1
    ((4 : ℝ) : EReal)
    (by
      show closestIntersection O0 D0 ((1 : ℝ) : EReal) ⊤ [S1] =
        (some S1, ((4 : ℝ) : EReal))
      exact closest_scenario S1 rfl rfl)
    (by norm_num)
    (by norm_num [S1])
  exact ⟨h.1, h.2 bg0 (Vec3.mk 1 2 3)⟩

/-- Claim C7: in the scene with the single sphere `S0` (center `(0,0,5)`,
radius `1`, color `(255,0,0)`, specular `-1`, reflective `0`) and a single
ambient light of intensity `1`, the ray from `(0,0,0)` along `(0,0,1)` with
`tMin = 1`, `tMax = ⊤` and the default depth `3` hits at `t = 4` and
`traceRay` returns exactly `(255,0,0)`. -/
theorem traceRay_end_to_end :
    closestIntersection O0 D0 ((1 : ℝ) : EReal) ⊤ scene0.spheres =
      (some S0, ((4 : ℝ) : EReal)) ∧
    traceRay scene0 bg0 O0 D0 ((1 : ℝ) : EReal) ⊤ 3 = Vec3.mk 255 0 0 := by
  have hc : closestIntersection O0 D0 ((1 : ℝ) : EReal) ⊤ scene0.spheres =
      (some S0, ((4 : ℝ) : EReal)) := closest_scenario S0 rfl rfl
  refine ⟨hc, ?_⟩
  rw [traceRay_of_some scene0 bg0 O0 D0 ((1 : ℝ) : EReal) ⊤ 3 S0
      ((4 : ℝ) : EReal) hc,
    if_pos (Or.inr (by norm_num [S0]))]
  unfold localColorAt
  have hl : ∀ P N V : Vec3, computeLighting scene0 P N V S0.specular = 1 := by
    intro P N V
    simp [computeLighting, scene0, lightContribution]
  rw [hl]
  norm_num [scale, S0, Vec3.mk.injEq]

theorem traceRayFuel_bound_aux (n : ℕ) :
    ∀ (scene : Scene) (backgroundColor : Color) (O D : Vec3)
      (tMin tMax : EReal) (depth : ℤ), depth.toNat ≤ n →
      traceRayFuel scene backgroundColor (n + 1) O D tMin tMax depth =
        some (traceRay scene backgroundColor O D tMin tMax depth) := by
  induction n with
  | zero =>
    intro scene backgroundColor O D tMin tMax depth hd
    have hd0 : depth ≤ 0 := by omega
    rw [traceRayFuel_succ]
    rcases hres : closestIntersection O D tMin tMax scene.spheres with ⟨os, tt⟩
    cases os with
    | none =>
      dsimp only
      rw [traceRay_of_none scene backgroundColor O D tMin tMax depth
        (by rw [hres])]
    | some s =>
      dsimp only
      rw [if_pos (Or.inl hd0),
        traceRay_of_some scene backgroundColor O D tMin tMax depth s tt hres,
        if_pos (Or.inl hd0)]
  | succ n ih =>
    intro scene backgroundColor O D tMin tMax depth hd
    rw [traceRayFuel_succ]
    rcases hres : closestIntersection O D tMin tMax scene.spheres with ⟨os, tt⟩
    cases os with
    | none =>
      dsimp only
      rw [traceRay_of_none scene backgroundColor O D tMin tMax depth
        (by rw [hres])]
    | some s =>
      dsimp only
      rw [traceRay_of_some scene backgroundColor O D tMin tMax depth s tt hres]
      by_cases hcond : depth ≤ 0 ∨ s.reflective ≤ 0
      · rw [if_pos hcond, if_pos hcond]
      · rw [if_neg hcond, if_neg hcond]
        have hstep : (depth - 1).toNat ≤ n := by
          rcases not_or.mp hcond with ⟨h1, -⟩
          rw [not_le] at h1
          omega
        rw [ih scene backgroundColor (hitPoint O D tt.toReal)
          (reflectRay (scale (-1) D) (surfaceNormal (hitPoint O D tt.toReal) s))
          ((0.001 : ℝ) : EReal) ⊤ (depth - 1) hstep]

/-- Claim C8: `traceRay` terminates on every input — the recursion proceeds
on the strictly decreasing `depth` and stops at `depth ≤ 0` or at a
non-reflective surface, so `depth.toNat + 1` units of fuel always suffice
for the fuel-instrumented tracer to finish and agree with `traceRay`. -/
theorem traceRay_terminates (scene : Scene) (backgroundColor : Color)
    (O D : Vec3) (tMin tMax : EReal) (depth : ℤ) :
    traceRayFuel scene backgroundColor (depth.toNat + 1) O D tMin tMax depth =
      some (traceRay scene backgroundColor O D tMin tMax depth) :=
  traceRayFuel_bound_aux depth.toNat scene backgroundColor O D tMin tMax depth
    (le_refl _)

end Raytracer
